import Mathlib

/-!
Verification development for the bcachefs mark-and-reconcile garbage collector
(fs/bcachefs/btree_gc.c).  The C functions are shallowly embedded as executable
Lean definitions: bucket arrays become total functions from bucket indexes to
bucket records, in-place mutation becomes explicit state passing, and fallible
steps return error codes as in the C source (0 means success).  Generation
counters are modelled as natural numbers; helper comparators that live in
headers outside this file tree (gen_cmp, gen_after, ptr_stale) are modelled
from the plain arithmetic used by the specification, with saturating
subtraction where the specification saturates at 0.
-/

set_option autoImplicit false

/-- A btree key position, as in struct bpos: an (inode, offset) pair compared
lexicographically.  Snapshot fields of later versions do not exist here. -/
structure BPos where
  inode : Nat
  offset : Nat
deriving DecidableEq

/-- Modelled from the spec: successor(pos), the smallest position strictly
greater than pos (bkey_successor lives in a header outside src).  Offsets are
unbounded naturals in the model, so the increment never carries. -/
def succPos (x : BPos) : BPos :=
  { x with offset := x.offset + 1 }

/-! ## Pointer repair, bch2_check_fix_ptrs (initial GC mode) -/

/-- One bucket of the GC (shadow) or live bucket array, restricted to the
fields read and written by bch2_check_fix_ptrs: the gen_valid flag and the
mark fields gen, data_type, dirty_sectors, cached_sectors. -/
structure FixBucket where
  genValid : Bool
  gen : Nat
  dataType : Nat
  dirtySectors : Nat
  cachedSectors : Nat
deriving DecidableEq

/-- A decoded extent pointer: the bucket it references (device and bucket
offset flattened into one index), its generation stamp and its cached flag. -/
structure FixPtr where
  bucket : Nat
  gen : Nat
  cached : Bool
deriving DecidableEq

/-- One entry of the extent entry list of a bkey: either a bucket pointer or a
stripe pointer referencing an erasure-coded stripe by index. -/
inductive ExtEntry where
  | ptr (p : FixPtr)
  | stripePtr (idx : Nat)
deriving DecidableEq

/-- State touched by bch2_check_fix_ptrs: the GC bucket array (PTR_BUCKET with
gc = true), the live bucket array (gc = false), the aliveness of each gc
stripe (genradix lookup combined with the alive bit), and the two filesystem
flag bits the function may set. -/
structure FixState where
  gcBuckets : Nat → FixBucket
  liveBuckets : Nat → FixBucket
  stripeAlive : Nat → Bool
  needAnotherGC : Bool
  needAllocWrite : Bool

/-- Modelled from the spec: bkey_for_each_ptr_decode (extents.h, outside src).
Walks the entry list pairing every pointer entry with the stripe-pointer entry
that was seen since the previous pointer entry, which is how the decoder sets
p.has_ec / p.ec. -/
def decodePtrs : Option Nat → List ExtEntry → List (FixPtr × Option Nat)
  | _, [] => []
  | _, ExtEntry.stripePtr i :: rest => decodePtrs (some i) rest
  | pending, ExtEntry.ptr p :: rest => (p, pending) :: decodePtrs none rest

/-- Write one bucket of a bucket array, leaving every other index unchanged. -/
def setBucket (bs : Nat → FixBucket) (i : Nat) (g : FixBucket) : Nat → FixBucket :=
  fun j => if j = i then g else bs j

/-- The body of the first loop of bch2_check_fix_ptrs for a single decoded
pointer: the three generation checks and the dead-stripe check, each updating
the state and the do_update accumulator exactly as the C source does.  The
fsck_err_on conditions are modelled with repair allowed, and gen comparisons
(gen_cmp, outside src) are modelled from the plain arithmetic of the spec.
Note that the future-gen cached branch zeroes the data type and sector counts
only on the live copy (g2), matching the source. -/
def fixOnePtr (st : FixState) (du : Bool) (pe : FixPtr × Option Nat) : FixState × Bool :=
  let p := pe.1
  -- bucket gen missing in alloc btree
  let g := st.gcBuckets p.bucket
  let st :=
    if ¬g.genValid ∧ p.cached then
      { st with
        gcBuckets := setBucket st.gcBuckets p.bucket { g with gen := p.gen, genValid := true },
        liveBuckets := setBucket st.liveBuckets p.bucket
          { st.liveBuckets p.bucket with gen := p.gen, genValid := true },
        needAllocWrite := true }
    else st
  let du := du || (!g.genValid && !p.cached)
  -- pointer gen in the future
  let g := st.gcBuckets p.bucket
  let st :=
    if g.gen < p.gen ∧ p.cached then
      { st with
        gcBuckets := setBucket st.gcBuckets p.bucket { g with gen := p.gen, genValid := true },
        liveBuckets := setBucket st.liveBuckets p.bucket
          { st.liveBuckets p.bucket with
            gen := p.gen, genValid := true, dataType := 0, dirtySectors := 0,
            cachedSectors := 0 },
        needAnotherGC := true,
        needAllocWrite := true }
    else st
  let du := du || (decide (g.gen < p.gen) && !p.cached)
  -- stale dirty pointer
  let g := st.gcBuckets p.bucket
  let du := du || (!p.cached && decide (p.gen < g.gen))
  -- pointer to a nonexistent or dead stripe
  let du := du ||
    (match pe.2 with
     | some i => !st.stripeAlive i
     | none => false)
  (st, du)

/-- The drop predicate of the reassembly phase of bch2_check_fix_ptrs,
evaluated against the (possibly already repaired) GC bucket array: drop a
cached pointer whose bucket gen is unknown or behind the pointer, and drop a
non-cached pointer whose gen is behind the bucket. -/
def fixDropPtr (bs : Nat → FixBucket) (p : FixPtr) : Bool :=
  let g := bs p.bucket
  (p.cached && (!g.genValid || decide (g.gen < p.gen))) ||
  (!p.cached && decide (p.gen < g.gen))

/-- Result of bch2_check_fix_ptrs: the final state, the key the caller
continues with, the key written to the journal-key overlay (if any), and the
returned error code (none on success). -/
structure FixResult where
  st : FixState
  k : List ExtEntry
  inserted : Option (List ExtEntry)
  err : Option Int

/-- Shallow embedding of bch2_check_fix_ptrs (btree_gc.c lines 163-278).
First loop: classify every decoded pointer, repairing cached-pointer buckets
in place and accumulating do_update.  If do_update: refuse btree roots,
otherwise reassemble the key, drop pointers matching the drop predicate,
repeatedly drop dead stripe entries, and insert the new key into the
journal-key overlay.  Memory allocation and the journal insert are modelled
as infallible. -/
def bch2_check_fix_ptrs (isRoot : Bool) (st0 : FixState) (k : List ExtEntry) : FixResult :=
  let r := (decodePtrs none k).foldl (fun a pe => fixOnePtr a.1 a.2 pe) (st0, false)
  let st := r.1
  if r.2 then
    if isRoot then
      { st := st, k := k, inserted := none, err := some (-22) }
    else
      let kept := k.filter fun e =>
        match e with
        | ExtEntry.ptr p => !fixDropPtr st.gcBuckets p
        | ExtEntry.stripePtr _ => true
      let new := kept.filter fun e =>
        match e with
        | ExtEntry.ptr _ => true
        | ExtEntry.stripePtr i => st.stripeAlive i
      { st := st, k := new, inserted := some new, err := none }
  else
    { st := st, k := k, inserted := none, err := none }

/-! ## Gens pass, gc_btree_gens_key / bch2_gc_btree_gens / bch2_gc_gens -/

/-- One bucket as seen by the gens pass: the current generation, the
oldest-gen horizon and the gc_gen scratch field. -/
structure GBucket where
  gen : Nat
  oldestGen : Nat
  gcGen : Nat
deriving DecidableEq

/-- A pointer as walked by the gens pass (bkey_for_each_ptr). -/
structure GenPtr where
  bucket : Nat
  gen : Nat
  cached : Bool
deriving DecidableEq

/-- Modelled from the spec: gen_after(a, b) = a - b saturating at 0 (the C
helper in buckets.h, outside src, computes the wrapped gen distance; the spec
describes it as plain subtraction saturating at 0). -/
def genAfter (a b : Nat) : Nat := a - b

/-- Second loop of gc_btree_gens_key for one pointer: lower the gc_gen of the
referenced bucket to the pointer gen if the pointer gen is behind it. -/
def lowerGcGen (bs : Nat → GBucket) (p : GenPtr) : Nat → GBucket :=
  fun j =>
    if j = p.bucket then
      let g := bs j
      if 0 < genAfter g.gcGen p.gen then { g with gcGen := p.gen } else g
    else bs j

/-- Shallow embedding of gc_btree_gens_key (btree_gc.c lines 1090-1116):
return true (key needs rewrite) if any pointer gen lags the bucket gen by
more than 16; otherwise lower gc_gen of every referenced bucket and return
false with the updated bucket array. -/
def gc_btree_gens_key (bs : Nat → GBucket) (k : List GenPtr) : Bool × (Nat → GBucket) :=
  if k.any fun p => decide (16 < genAfter (bs p.bucket).gen p.gen) then
    (true, bs)
  else
    (false, k.foldl lowerGcGen bs)

/-- Modelled from the spec: bch2_extent_normalize (extents.c, outside src)
as used by the gens pass, which the spec describes as dropping the pointers
whose gen is stale, i.e. behind the bucket gen. -/
def bch2_extent_normalize (bs : Nat → GBucket) (k : List GenPtr) : List GenPtr :=
  k.filter fun p => decide (genAfter (bs p.bucket).gen p.gen = 0)

/-- One iteration of the key loop of bch2_gc_btree_gens (btree_gc.c lines
1136-1156): if gc_btree_gens_key asks for a rewrite, reassemble and normalize
the key and commit it through a transactional update (the committed key is
returned); otherwise keep the bucket updates made by gc_btree_gens_key. -/
def gc_btree_gens_step (bs : Nat → GBucket) (k : List GenPtr) :
    (Nat → GBucket) × Option (List GenPtr) :=
  let r := gc_btree_gens_key bs k
  if r.1 then (bs, some (bch2_extent_normalize bs k)) else (r.2, none)

/-- Shallow embedding of the btree walk of bch2_gc_btree_gens, flattened over
all btrees that need GC: process every leaf key in order, collecting the
committed rewrites. -/
def bch2_gc_btree_gens (bs : Nat → GBucket) (keys : List (List GenPtr)) :
    (Nat → GBucket) × List (List GenPtr) :=
  keys.foldl
    (fun a k =>
      let s := gc_btree_gens_step a.1 k
      (s.1, a.2 ++ s.2.toList))
    (bs, [])

/-- Shallow embedding of bch2_gc_gens (btree_gc.c lines 1164-1210): seed
gc_gen from gen for every bucket, walk every leaf key of every btree needing
GC, then copy gc_gen into oldest_gen for every bucket. -/
def bch2_gc_gens (bs : Nat → GBucket) (keys : List (List GenPtr)) : Nat → GBucket :=
  let bs1 := fun i => { bs i with gcGen := (bs i).gen }
  let bs2 := (bch2_gc_btree_gens bs1 keys).1
  fun i => { bs2 i with oldestGen := (bs2 i).gcGen }

/-! ## Topology checker, bch2_gc_check_topology -/

/-- The btree key types the topology checker distinguishes: a deleted key
(bkey_deleted), a v1 btree pointer, and a v2 btree pointer which also carries
a declared min_key and the RANGE_UPDATED flag. -/
inductive BKType where
  | deleted
  | btreePtr
  | btreePtrV2
deriving DecidableEq

/-- A btree-pointer key as handled by the topology checker.  For a key whose
type is not btreePtrV2 the minKey and rangeUpdated fields have no on-disk
counterpart and are carried around unchanged. -/
structure BKey where
  kType : BKType
  p : BPos
  minKey : BPos
  rangeUpdated : Bool
deriving DecidableEq

/-- Result of one bch2_gc_check_topology call: the two repair decisions, the
journal-key overlay delete (by position) and insert it performed, and the new
value of the prev buffer. -/
structure TopoResult where
  updateMin : Bool
  updateMax : Bool
  deletedAt : Option BPos
  inserted : Option BKey
  prevOut : BKey
deriving DecidableEq

/-- Shallow embedding of bch2_gc_check_topology (btree_gc.c lines 57-161),
with fsck repair allowed.  expected_start is the node min_key if prev is
deleted, else the successor of the prev position.  update_min is decided for
v2 btree pointers with a diverging declared min_key; update_max for the last
key when its position is not the node max_key.  On any update the original
journal key at the cur position is deleted first when update_max holds, and a
patched copy is inserted, with the RANGE_UPDATED bit set when the key has one
(v2).  The in-memory rehash of a cached child node is outside this model. -/
def bch2_gc_check_topology (nodeMin nodeMax : BPos) (prev cur : BKey) (isLast : Bool) :
    TopoResult :=
  let expectedStart := if prev.kType = BKType.deleted then nodeMin else succPos prev.p
  let updateMin := cur.kType = BKType.btreePtrV2 && expectedStart ≠ cur.minKey
  let updateMax := isLast && cur.p ≠ nodeMax
  if updateMin || updateMax then
    let deletedAt := if updateMax then some cur.p else none
    let new := cur
    let new := if updateMin then { new with minKey := expectedStart } else new
    let new := if updateMax then { new with p := nodeMax } else new
    let new := if new.kType = BKType.btreePtrV2 then { new with rangeUpdated := true } else new
    { updateMin := updateMin, updateMax := updateMax, deletedAt := deletedAt,
      inserted := some new, prevOut := cur }
  else
    { updateMin := false, updateMax := false, deletedAt := none,
      inserted := none, prevOut := cur }

/-- The amended topology-checker contract, written from the corrected claim
text rather than from the C control flow: compute both decisions up front and
build the patched key in one step, setting the range-updated flag exactly when
the key is a v2 btree pointer. -/
def checkTopologySpec (nodeMin nodeMax : BPos) (prev cur : BKey) (isLast : Bool) :
    TopoResult :=
  let expectedStart := if prev.kType = BKType.deleted then nodeMin else succPos prev.p
  let uMin := decide (cur.kType = BKType.btreePtrV2 ∧ cur.minKey ≠ expectedStart)
  let uMax := decide (isLast = true ∧ cur.p ≠ nodeMax)
  if uMin || uMax then
    { updateMin := uMin, updateMax := uMax,
      deletedAt := if uMax then some cur.p else none,
      inserted := some
        { kType := cur.kType,
          p := if uMax then nodeMax else cur.p,
          minKey := if uMin then expectedStart else cur.minKey,
          rangeUpdated :=
            if cur.kType = BKType.btreePtrV2 then true else cur.rangeUpdated },
      prevOut := cur }
  else
    { updateMin := false, updateMax := false, deletedAt := none,
      inserted := none, prevOut := cur }

/-! ## Initial-mode recursive sweep, child loop of bch2_gc_btree_init_recurse -/

/-- Outcome of fetching one child node (bch2_btree_node_get_noiter): success
(carrying the error code returned by the recursive descent into that child,
0 on success), an EIO read failure, or another hard error. -/
inductive FetchOutcome where
  | ok (recurseRet : Int)
  | eio
  | hardErr (e : Int)
deriving DecidableEq

/-- Walker state for the child loop: the positions deleted through the
journal-key overlay, the need-another-pass flag, the pending return value and
whether the loop has stopped early. -/
structure WalkSt where
  deleted : List BPos
  needAnother : Bool
  ret : Int
  aborted : Bool
deriving DecidableEq

/-- Shallow embedding of the child loop of bch2_gc_btree_init_recurse
(btree_gc.c lines 485-519).  Each child key is reassembled and the child node
fetched; on EIO with fsck repair allowed the key is deleted via the
journal-key overlay, the need-another-pass flag is set and the walk continues;
on EIO without repair, or on any other error (from the fetch or from the
recursive descent), the walk stops and the error is returned.  The journal
delete is modelled as infallible. -/
def gc_init_walk_children (canRepair : Bool) : WalkSt → List (BPos × FetchOutcome) → WalkSt
  | st, [] => st
  | st, c :: rest =>
    if st.aborted then st
    else
      match c.2 with
      | FetchOutcome.eio =>
        if canRepair then
          gc_init_walk_children canRepair
            { st with deleted := st.deleted ++ [c.1], needAnother := true } rest
        else { st with ret := -5, aborted := true }
      | FetchOutcome.hardErr e => { st with ret := e, aborted := true }
      | FetchOutcome.ok r =>
        if r = 0 then gc_init_walk_children canRepair st rest
        else { st with ret := r, aborted := true }

/-! ## Reconciliation, the bucket loop of bch2_gc_done -/

/-- The bucket_mark fields compared and copied by copy_bucket_field in
bch2_gc_done. -/
structure BucketMark where
  gen : Nat
  dataType : Nat
  ownedByAllocator : Nat
  stripe : Nat
  dirtySectors : Nat
  cachedSectors : Nat
deriving DecidableEq

/-- One bucket as reconciliation sees it: the mark plus the oldest_gen field
living outside the mark. -/
structure GcBucketEnt where
  mark : BucketMark
  oldestGen : Nat
deriving DecidableEq

/-- The copy_bucket_field macro for one field: if destination and source
differ, copy and set the needs-alloc-write flag, else leave both alone. -/
def copy_bucket_field (d s : Nat) (flag : Bool) : Nat × Bool :=
  if d ≠ s then (s, true) else (d, flag)

/-- The body of the bucket loop of bch2_gc_done (btree_gc.c lines 840-849)
for one bucket: copy each mark field through copy_bucket_field, threading the
needs-alloc-write flag, then copy oldest_gen unconditionally and without
touching the flag. -/
def bch2_gc_done_bucket (dst src : GcBucketEnt) (flag : Bool) : GcBucketEnt × Bool :=
  let r1 := copy_bucket_field dst.mark.gen src.mark.gen flag
  let r2 := copy_bucket_field dst.mark.dataType src.mark.dataType r1.2
  let r3 := copy_bucket_field dst.mark.ownedByAllocator src.mark.ownedByAllocator r2.2
  let r4 := copy_bucket_field dst.mark.stripe src.mark.stripe r3.2
  let r5 := copy_bucket_field dst.mark.dirtySectors src.mark.dirtySectors r4.2
  let r6 := copy_bucket_field dst.mark.cachedSectors src.mark.cachedSectors r5.2
  ({ mark :=
      { gen := r1.1, dataType := r2.1, ownedByAllocator := r3.1, stripe := r4.1,
        dirtySectors := r5.1, cachedSectors := r6.1 },
     oldestGen := src.oldestGen }, r6.2)

/-- The bucket loop of bch2_gc_done over one device: iterate b over the
shadow array (src), reconciling the live array (dst) bucket by bucket and
threading the needs-alloc-write flag. -/
def bch2_gc_done_buckets : List GcBucketEnt → List GcBucketEnt → Bool →
    List GcBucketEnt × Bool
  | d :: ds, s :: ss, flag =>
    let r := bch2_gc_done_bucket d s flag
    let rest := bch2_gc_done_buckets ds ss r.2
    (r.1 :: rest.1, rest.2)
  | ds, _, flag => (ds, flag)

/-! ## The GC position cursor -/

/-- Modelled from the spec: the gc_pos cursor is a lexicographically ordered
tuple (phase, level, node position, allocator slot); the btree id is folded
into the phase, with NOT_RUNNING < START < SB < PENDING_DELETE < BTREE(id) <
ALLOC < DONE (gc_pos and its comparator live in btree_gc.h, outside src). -/
structure GcPos where
  phase : Nat
  level : Nat
  pos : Nat
  slot : Nat
deriving DecidableEq

/-- Strict lexicographic order on gc_pos cursors, as a Boolean. -/
def gcPosLtb (a b : GcPos) : Bool :=
  decide (a.phase < b.phase) ||
  (a.phase == b.phase &&
    (decide (a.level < b.level) ||
      (a.level == b.level &&
        (decide (a.pos < b.pos) ||
          (a.pos == b.pos && decide (a.slot < b.slot))))))

/-- The fixed phase cursor values used directly by the orchestrator. -/
def gcPosNotRunningV : GcPos := { phase := 0, level := 0, pos := 0, slot := 0 }

/-- Cursor value for GC_PHASE_START. -/
def gcPosStartV : GcPos := { phase := 1, level := 0, pos := 0, slot := 0 }

/-- Cursor value for GC_PHASE_SB. -/
def gcPosSBV : GcPos := { phase := 2, level := 0, pos := 0, slot := 0 }

/-- Sequence of gc_pos values installed by one run of bch2_gc, parameterized
by the positions each mark pass installs between GC_PHASE_SB and its final
reset (the per-btree and allocator positions).  From the source: gc_start
installs START, mark_superblocks installs SB, the sweep and allocator marking
install the pass positions, and every pass (restarted or final, successful or
not) ends with __gc_pos_set writing NOT_RUNNING, which skips the BUG_ON
monotonicity assertion of gc_pos_set. -/
def gc_pos_trace : List (List GcPos) → List GcPos
  | [] => []
  | mid :: rest => gcPosStartV :: gcPosSBV :: (mid ++ gcPosNotRunningV :: gc_pos_trace rest)

/-! ## Orchestrator, bch2_gc -/

/-- What one mark pass of bch2_gc produces, as seen by the orchestrator
control flow: the return codes of bch2_gc_start and bch2_gc_btrees, the state
of the NEED_ANOTHER_GC flag after the pass, and the shadow bucket array the
pass computed (used by reconciliation if this pass is the last). -/
structure GcPassOutcome where
  startRet : Int
  btreesRet : Int
  needAnother : Bool
  shadow : List GcBucketEnt

/-- Filesystem state threaded through bch2_gc, restricted to what the claims
observe: the live bucket array, the needs-alloc-write flag, the gc_pos
cursor and the gc_count counter. -/
structure GcFsState where
  live : List GcBucketEnt
  needAllocWrite : Bool
  gcPos : GcPos
  gcCount : Nat

/-- Result of a bch2_gc run: how many mark passes were executed, the returned
error code, the final filesystem state, whether reconciliation (bch2_gc_done)
ran, and whether the shadow structures were freed before returning. -/
structure GcRunResult where
  passes : Nat
  ret : Int
  st : GcFsState
  gcDoneRan : Bool
  shadowFreed : Bool

/-- The out path of bch2_gc (btree_gc.c lines 1052-1068): if no error so far,
block the journal and reconcile (modelled on the bucket domain by
bch2_gc_done_buckets); in both cases reset gc_pos to NOT_RUNNING, free the
shadow structures and return. -/
def gcOut (ret : Int) (shadow : List GcBucketEnt) (st : GcFsState) (passes : Nat) :
    GcRunResult :=
  if ret = 0 then
    let p := bch2_gc_done_buckets st.live shadow st.needAllocWrite
    { passes := passes, ret := 0,
      st := { st with live := p.1, needAllocWrite := p.2, gcPos := gcPosNotRunningV },
      gcDoneRan := true, shadowFreed := true }
  else
    { passes := passes, ret := ret,
      st := { st with gcPos := gcPosNotRunningV },
      gcDoneRan := false, shadowFreed := true }

/-- The again loop of bch2_gc (btree_gc.c lines 1012-1051).  outcomes n
describes the n-th mark pass.  restartsLeft counts how many more restarts the
iter++ <= 2 guard still allows (3 at entry, so iter = 3 - restartsLeft): on a
restart request with restarts left, reset gc_pos, free the shadow and run the
next pass; with none left, fail with -EINVAL (-22).  A nonzero return from
bch2_gc_start or bch2_gc_btrees jumps to the out path.  mark_superblocks and
mark_allocator_buckets return no error; gc_count is incremented after the
allocator marks of every completed pass. -/
def gcRunLoop (outcomes : Nat → GcPassOutcome) (testRestart : Bool) :
    Nat → Nat → GcFsState → GcRunResult
  | restartsLeft, n, st =>
    let o := outcomes n
    if o.startRet ≠ 0 then gcOut o.startRet o.shadow st (n + 1)
    else
      let st := { st with gcPos := gcPosStartV }
      let st := { st with gcPos := gcPosSBV }
      if o.btreesRet ≠ 0 then gcOut o.btreesRet o.shadow st (n + 1)
      else
        let st := { st with gcCount := st.gcCount + 1 }
        if o.needAnother || (n == 0 && testRestart) then
          match restartsLeft with
          | Nat.succ r =>
            gcRunLoop outcomes testRestart r (n + 1) { st with gcPos := gcPosNotRunningV }
          | 0 => gcOut (-22) o.shadow st (n + 1)
        else gcOut 0 o.shadow st (n + 1)

/-- Shallow embedding of bch2_gc (btree_gc.c lines 997-1088): run the again
loop with three restarts allowed, i.e. with the iter++ <= 2 guard. -/
def bch2_gc (outcomes : Nat → GcPassOutcome) (testRestart : Bool) (st : GcFsState) :
    GcRunResult :=
  gcRunLoop outcomes testRestart 3 0 st

/-! ## Coalescer entry point, bch2_coalesce -/

/-- The btree loop of bch2_coalesce with the reader count held while looping:
on the first nonzero return code the function returns immediately, leaving
the reader count as it is; the empty-list (all-success) case performs the
final up_read. -/
def coalesceLoop (readers : Nat) : List Int → Nat
  | [] => readers - 1
  | r :: rest => if r ≠ 0 then readers else coalesceLoop readers rest

/-- Shallow embedding of bch2_coalesce (btree_gc.c lines 1524-1545) tracking
the gc_lock reader count: take the gc read lock, then run bch2_coalesce_btree
for each btree with a root (rs lists those return codes; a btree with no root
contributes 0).  Only the all-success path reaches the final up_read; the
result is the reader count at return. -/
def bch2_coalesce (rs : List Int) (gcLockReaders : Nat) : Nat :=
  coalesceLoop (gcLockReaders + 1) rs

/-! ## Concrete instances used by witnesses and counterexamples -/

/-- A pointer-repair state whose buckets all have a valid generation 5. -/
def fixStateEx : FixState :=
  { gcBuckets := fun _ =>
      { genValid := true, gen := 5, dataType := 0, dirtySectors := 0, cachedSectors := 0 },
    liveBuckets := fun _ =>
      { genValid := true, gen := 5, dataType := 0, dirtySectors := 0, cachedSectors := 0 },
    stripeAlive := fun _ => true,
    needAnotherGC := false,
    needAllocWrite := false }

/-- A key holding a single non-cached pointer one generation in the future of
bucket 0 of fixStateEx. -/
def fixKeyFuture : List ExtEntry :=
  [ExtEntry.ptr { bucket := 0, gen := 6, cached := false }]

/-- Pass outcomes that always succeed and always request another pass. -/
def gcOutAlwaysEx : Nat → GcPassOutcome :=
  fun _ => { startRet := 0, btreesRet := 0, needAnother := true, shadow := [] }

/-- Pass outcomes whose shadow allocation always fails with -5. -/
def gcErrOutEx : Nat → GcPassOutcome :=
  fun _ => { startRet := -5, btreesRet := 0, needAnother := false, shadow := [] }

/-- A filesystem state with an empty bucket array. -/
def gcFsStEx : GcFsState :=
  { live := [], needAllocWrite := false, gcPos := gcPosNotRunningV, gcCount := 0 }

/-- A gens-pass bucket array: every bucket has gen 10, oldest_gen 2. -/
def gensBsW : Nat → GBucket :=
  fun _ => { gen := 10, oldestGen := 2, gcGen := 0 }

/-- One leaf key with a single slightly stale pointer into gensBsW. -/
def gensKeysW : List (List GenPtr) :=
  [[{ bucket := 0, gen := 4, cached := false }]]

/-- A gens-pass bucket array whose buckets are 30 generations ahead. -/
def gensBsRw : Nat → GBucket :=
  fun _ => { gen := 30, oldestGen := 0, gcGen := 30 }

/-- A bucket mark shared between live and shadow in the reconciliation
counterexample. -/
def cMarkEx : BucketMark :=
  { gen := 1, dataType := 2, ownedByAllocator := 0, stripe := 0,
    dirtySectors := 3, cachedSectors := 4 }

/-- Mid-pass cursor positions of one mark pass: the entry position of btree 0,
a node of btree 0 at level 1, and the allocator phase. -/
def gcMidsEx : List (List GcPos) :=
  [[{ phase := 4, level := 0, pos := 0, slot := 0 },
    { phase := 4, level := 1, pos := 50, slot := 0 },
    { phase := 12, level := 0, pos := 0, slot := 0 }]]

/-- The live bucket of the reconciliation witness. -/
def cLiveEx : GcBucketEnt := { mark := cMarkEx, oldestGen := 5 }

/-- The shadow bucket of the reconciliation witness: same oldest_gen, one
differing mark field. -/
def cShadowEx : GcBucketEnt := { mark := { cMarkEx with dirtySectors := 9 }, oldestGen := 5 }

/-! ## Theorems -/

/-- Claim C1: in initial mode, when bch2_check_fix_ptrs decides a rewrite is
needed, the spec says both future and stale non-cached pointers are dropped
from the rewritten key.  Evaluating the embedding at a key with a single
non-cached pointer whose gen (6) is ahead of its bucket gen (5): the repair
path runs (a key is written to the journal overlay), yet the written key
still contains that pointer, because the drop predicate of the reassembly
phase only matches stale non-cached and invalid-or-future cached pointers.
The bucket of the pointer is left at gen 5, so the written key is identical
to the input and the reported inconsistency is never repaired. -/
theorem check_fix_ptrs_future_dirty_ptr_kept :
    (bch2_check_fix_ptrs false fixStateEx fixKeyFuture).err = none ∧
    (bch2_check_fix_ptrs false fixStateEx fixKeyFuture).inserted = some fixKeyFuture ∧
    fixKeyFuture = [ExtEntry.ptr { bucket := 0, gen := 6, cached := false }] ∧
    ((bch2_check_fix_ptrs false fixStateEx fixKeyFuture).st.gcBuckets 0).gen = 5 ∧
    ((bch2_check_fix_ptrs false fixStateEx fixKeyFuture).st.gcBuckets 0).genValid = true := by
  decide

/-- Claim C10: bch2_coalesce releases the gc read lock it takes only on the
all-success path; any nonzero return code from bch2_coalesce_btree (the
shutdown sentinel included) makes it return with the lock still held.  The
reader count at return exceeds the entry count exactly when some btree
reported an error. -/
theorem coalesce_lock_released_iff_success (rs : List Int) (n : Nat) :
    bch2_coalesce rs n = if rs.any fun r => decide (r ≠ 0) then n + 1 else n := by
  unfold bch2_coalesce
  induction rs with
  | nil => simp [coalesceLoop]
  | cons r rest ih =>
    by_cases h : r = 0
    · simpa [coalesceLoop, h] using ih
    · simp [coalesceLoop, h]

/-- Claim C4 counterexample: a live and a shadow bucket agreeing on every
mark field but differing in oldest_gen.  Reconciliation copies oldest_gen to
the live bucket but leaves the needs-alloc-write flag clear, so a copied,
differing field does not set the flag as the claim states. -/
theorem gc_done_oldest_gen_no_flag_counterexample :
    (bch2_gc_done_buckets
        [{ mark := cMarkEx, oldestGen := 5 }] [{ mark := cMarkEx, oldestGen := 7 }] false).2
      = false ∧
    (bch2_gc_done_buckets
        [{ mark := cMarkEx, oldestGen := 5 }] [{ mark := cMarkEx, oldestGen := 7 }] false).1
      = [{ mark := cMarkEx, oldestGen := 7 }] := by
  decide

/-- Helper: copy_bucket_field always ends with the source value and ors the
flag with whether the two values differed. -/
theorem copy_bucket_field_eq (d s : Nat) (f : Bool) :
    copy_bucket_field d s f = (s, f || decide (d ≠ s)) := by
  unfold copy_bucket_field
  by_cases h : d = s <;> simp [h]

/-- Helper: the per-bucket reconciliation step copies the whole shadow bucket
and ors the flag with whether the marks differed; the oldest_gen copy never
contributes to the flag. -/
theorem gc_done_bucket_eq (d s : GcBucketEnt) (f : Bool) :
    bch2_gc_done_bucket d s f = (s, f || decide (d.mark ≠ s.mark)) := by
  obtain ⟨⟨g1, t1, a1, p1, q1, c1⟩, o1⟩ := d
  obtain ⟨⟨g2, t2, a2, p2, q2, c2⟩, o2⟩ := s
  simp only [bch2_gc_done_bucket, copy_bucket_field_eq, Prod.mk.injEq]
  refine ⟨trivial, ?_⟩
  by_cases h : (⟨g1, t1, a1, p1, q1, c1⟩ : BucketMark) = ⟨g2, t2, a2, p2, q2, c2⟩
  · simp only [BucketMark.mk.injEq] at h
    obtain ⟨rfl, rfl, rfl, rfl, rfl, rfl⟩ := h
    simp
  · have hd : decide ((⟨g1, t1, a1, p1, q1, c1⟩ : BucketMark) ≠ ⟨g2, t2, a2, p2, q2, c2⟩)
        = true := by simp [h]
    rw [hd]
    simp only [Bool.or_true]
    simp only [BucketMark.mk.injEq] at h
    simp only [Bool.or_eq_true, decide_eq_true_eq, ne_eq]
    tauto

/-- Claim C4 (amended): in the bucket loop of bch2_gc_done, every mark field
copied through copy_bucket_field sets the needs-alloc-write flag when live and
shadow differ — the flag comes out set exactly when some bucket mark differs —
while the oldest_gen copy is unconditional and never sets the flag. -/
theorem gc_done_bucket_fields_flag (ds ss : List GcBucketEnt) (flag : Bool)
    (h : ds.length = ss.length) :
    (bch2_gc_done_buckets ds ss flag).2
      = (flag || (ds.zip ss).any fun x => decide (x.1.mark ≠ x.2.mark)) ∧
    (bch2_gc_done_buckets ds ss flag).1.map GcBucketEnt.oldestGen
      = ss.map GcBucketEnt.oldestGen ∧
    (bch2_gc_done_buckets ds ss flag).1.map GcBucketEnt.mark
      = ss.map GcBucketEnt.mark := by
  induction ds generalizing ss flag with
  | nil =>
    cases ss with
    | nil => simp [bch2_gc_done_buckets]
    | cons s ss => simp at h
  | cons d ds ih =>
    cases ss with
    | nil => simp at h
    | cons s ss =>
      have hlen : ds.length = ss.length := by simpa using h
      have hrec := ih ss (flag || decide (d.mark ≠ s.mark)) hlen
      simp only [bch2_gc_done_buckets, gc_done_bucket_eq, List.zip_cons_cons,
        List.any_cons, List.map_cons]
      refine ⟨?_, ?_, ?_⟩
      · rw [hrec.1, Bool.or_assoc]
      · rw [hrec.2.1]
      · rw [hrec.2.2]

/-- Claim C4 witness: the amended reconciliation contract evaluated at a
one-bucket device whose dirty-sector counts disagree. -/
theorem gc_done_bucket_fields_flag_witness :
    (bch2_gc_done_buckets [cLiveEx] [cShadowEx] false).2
      = (false || ([cLiveEx].zip [cShadowEx]).any fun x => decide (x.1.mark ≠ x.2.mark)) ∧
    (bch2_gc_done_buckets [cLiveEx] [cShadowEx] false).1.map GcBucketEnt.oldestGen
      = [cShadowEx].map GcBucketEnt.oldestGen ∧
    (bch2_gc_done_buckets [cLiveEx] [cShadowEx] false).1.map GcBucketEnt.mark
      = [cShadowEx].map GcBucketEnt.mark :=
  gc_done_bucket_fields_flag [cLiveEx] [cShadowEx] false rfl

/-- Claim C5 counterexample: an interior node whose last key is a v1 btree
pointer with a wrong max bound.  The checker decides update_max and writes a
patched copy with the corrected position, but the patched key carries no
range-updated flag (only btree_ptr_v2 keys have one), so the claim that every
update sets the flag fails at this input. -/
theorem check_topology_v1_no_flag_counterexample :
    ((bch2_gc_check_topology { inode := 0, offset := 0 } { inode := 10, offset := 10 }
        { kType := BKType.deleted, p := { inode := 0, offset := 0 },
          minKey := { inode := 0, offset := 0 }, rangeUpdated := false }
        { kType := BKType.btreePtr, p := { inode := 5, offset := 5 },
          minKey := { inode := 0, offset := 0 }, rangeUpdated := false } true).updateMax
      = true) ∧
    (bch2_gc_check_topology { inode := 0, offset := 0 } { inode := 10, offset := 10 }
        { kType := BKType.deleted, p := { inode := 0, offset := 0 },
          minKey := { inode := 0, offset := 0 }, rangeUpdated := false }
        { kType := BKType.btreePtr, p := { inode := 5, offset := 5 },
          minKey := { inode := 0, offset := 0 }, rangeUpdated := false } true).inserted
      = some { kType := BKType.btreePtr, p := { inode := 10, offset := 10 },
               minKey := { inode := 0, offset := 0 }, rangeUpdated := false } := by
  decide

set_option maxHeartbeats 1000000 in
/-- Claim C5 (amended): the topology checker marks update_min exactly when cur
is a btree_ptr_v2 whose declared min_key differs from expected_start, marks
update_max exactly when cur is the last key and its position differs from the
node max_key, and on any update first deletes the journal key at the cur
position when update_max holds, then writes a patched copy with corrected
min_key and/or position, setting the range-updated flag when the patched key
is a btree_ptr_v2 (a v1 btree pointer carries no such flag).  Stated as a
refinement: the embedded C control flow equals the claim-shaped contract
checkTopologySpec on every input. -/
theorem check_topology_refines_spec (nodeMin nodeMax : BPos) (prev cur : BKey)
    (isLast : Bool) :
    bch2_gc_check_topology nodeMin nodeMax prev cur isLast
      = checkTopologySpec nodeMin nodeMax prev cur isLast := by
  obtain ⟨kt, cp, cm, cr⟩ := cur
  unfold bch2_gc_check_topology checkTopologySpec
  set e := (if prev.kType = BKType.deleted then nodeMin else succPos prev.p) with he
  cases kt <;> cases isLast <;>
    by_cases hm : e = cm <;>
    by_cases hp : cp = nodeMax <;>
    simp [hm, hp, ne_comm] <;>
    (have hm2 : ¬cm = e := fun h => hm (Eq.symm h)
     simp [hm2, hp])

/-- Helper: once the child walk has stopped early, it stays stopped. -/
theorem gc_init_walk_aborted (canRepair : Bool) (st : WalkSt)
    (l : List (BPos × FetchOutcome)) (h : st.aborted = true) :
    gc_init_walk_children canRepair st l = st := by
  cases l with
  | nil => rfl
  | cons c rest => simp [gc_init_walk_children, h]

/-- Helper: the child walk processes a concatenation by processing the two
parts in sequence. -/
theorem gc_init_walk_append (canRepair : Bool) (st : WalkSt)
    (a b : List (BPos × FetchOutcome)) :
    gc_init_walk_children canRepair st (a ++ b)
      = gc_init_walk_children canRepair (gc_init_walk_children canRepair st a) b := by
  induction a generalizing st with
  | nil => rfl
  | cons c rest ih =>
    obtain ⟨pos, f⟩ := c
    by_cases h : st.aborted = true
    · rw [gc_init_walk_aborted canRepair st _ h, gc_init_walk_aborted canRepair st _ h,
        gc_init_walk_aborted canRepair st b h]
    · simp only [List.cons_append, gc_init_walk_children, if_neg h]
      cases f with
      | eio =>
        cases canRepair with
        | true => simp only [if_pos rfl]; exact ih _
        | false =>
          simp only [Bool.false_eq_true, if_neg (fun hf : False => hf.elim), if_false]
          rw [gc_init_walk_aborted _ _ b rfl]
      | hardErr e => rw [gc_init_walk_aborted _ _ b rfl]
      | ok r =>
        by_cases hr0 : r = 0
        · simp only [if_pos hr0]; exact ih _
        · simp only [if_neg hr0]
          rw [gc_init_walk_aborted _ _ b rfl]

/-- Helper: the child walk only appends to the list of deleted keys. -/
theorem gc_init_walk_deleted_mono (canRepair : Bool)
    (l : List (BPos × FetchOutcome)) : ∀ st : WalkSt,
    ∃ t, (gc_init_walk_children canRepair st l).deleted = st.deleted ++ t := by
  induction l with
  | nil => intro st; exact ⟨[], by simp [gc_init_walk_children]⟩
  | cons c rest ih =>
    intro st
    obtain ⟨pos, f⟩ := c
    by_cases h : st.aborted = true
    · exact ⟨[], by rw [gc_init_walk_aborted _ _ _ h]; simp⟩
    · simp only [gc_init_walk_children, if_neg h]
      cases f with
      | eio =>
        cases canRepair with
        | true =>
          simp only [if_pos rfl]
          obtain ⟨t, ht⟩ := ih { st with deleted := st.deleted ++ [pos], needAnother := true }
          refine ⟨[pos] ++ t, ?_⟩
          rw [if_pos trivial, ht]
          simp
        | false =>
          simp only [Bool.false_eq_true, if_neg (fun hf : False => hf.elim), if_false]
          exact ⟨[], by simp⟩
      | hardErr e => exact ⟨[], by simp⟩
      | ok r =>
        by_cases hr0 : r = 0
        · simp only [if_pos hr0]
          exact ih st
        · simp only [if_neg hr0]
          exact ⟨[], by simp⟩

/-- Helper: the need-another-pass flag is never cleared by the child walk. -/
theorem gc_init_walk_needAnother_mono (canRepair : Bool)
    (l : List (BPos × FetchOutcome)) : ∀ st : WalkSt, st.needAnother = true →
    (gc_init_walk_children canRepair st l).needAnother = true := by
  induction l with
  | nil => intro st h; exact h
  | cons c rest ih =>
    intro st h
    obtain ⟨pos, f⟩ := c
    by_cases ha : st.aborted = true
    · rw [gc_init_walk_aborted _ _ _ ha]; exact h
    · simp only [gc_init_walk_children, if_neg ha]
      cases f with
      | eio =>
        cases canRepair with
        | true =>
          simp only [if_pos rfl]
          exact ih _ rfl
        | false =>
          simp only [Bool.false_eq_true, if_neg (fun hf : False => hf.elim), if_false]
          exact h
      | hardErr e => exact h
      | ok r =>
        by_cases hr0 : r = 0
        · simp only [if_pos hr0]
          exact ih _ h
        · simp only [if_neg hr0]
          exact h

/-- Claim C8: during the initial-mode recursive sweep with fsck repair
allowed, an EIO child fetch is recoverable: provided the walk has not already
stopped before reaching the child, the walker deletes that child key via the
journal-key overlay, sets the need-another-pass flag, and continues with the
remaining children instead of aborting. -/
theorem gc_init_recurse_eio_recoverable (st : WalkSt)
    (pre suf : List (BPos × FetchOutcome)) (pos : BPos)
    (h : (gc_init_walk_children true st pre).aborted = false) :
    gc_init_walk_children true st (pre ++ (pos, FetchOutcome.eio) :: suf)
      = gc_init_walk_children true
          { gc_init_walk_children true st pre with
            deleted := (gc_init_walk_children true st pre).deleted ++ [pos],
            needAnother := true } suf ∧
    pos ∈ (gc_init_walk_children true st (pre ++ (pos, FetchOutcome.eio) :: suf)).deleted ∧
    (gc_init_walk_children true st (pre ++ (pos, FetchOutcome.eio) :: suf)).needAnother
      = true := by
  have hstep : gc_init_walk_children true st (pre ++ (pos, FetchOutcome.eio) :: suf)
      = gc_init_walk_children true
          { gc_init_walk_children true st pre with
            deleted := (gc_init_walk_children true st pre).deleted ++ [pos],
            needAnother := true } suf := by
    rw [gc_init_walk_append]
    have hab : ¬(gc_init_walk_children true st pre).aborted = true := by
      rw [h]; exact fun hf => nomatch hf
    simp only [gc_init_walk_children, if_neg hab]
    rw [if_pos trivial]
  refine ⟨hstep, ?_, ?_⟩
  · rw [hstep]
    obtain ⟨t, ht⟩ := gc_init_walk_deleted_mono true suf
      { gc_init_walk_children true st pre with
        deleted := (gc_init_walk_children true st pre).deleted ++ [pos],
        needAnother := true }
    rw [ht]
    simp
  · rw [hstep]
    exact gc_init_walk_needAnother_mono true suf _ rfl

/-- Claim C8 witness: a three-child walk whose middle child read fails with
EIO; the first and last children fetch and recurse cleanly. -/
theorem gc_init_recurse_eio_recoverable_witness :
    (gc_init_walk_children true { deleted := [], needAnother := false, ret := 0, aborted := false }
        [({ inode := 1, offset := 1 }, FetchOutcome.ok 0)]).aborted = false ∧
    gc_init_walk_children true { deleted := [], needAnother := false, ret := 0, aborted := false }
        ([({ inode := 1, offset := 1 }, FetchOutcome.ok 0)] ++
          ({ inode := 2, offset := 2 }, FetchOutcome.eio) ::
            [({ inode := 3, offset := 3 }, FetchOutcome.ok 0)])
      = gc_init_walk_children true
          { gc_init_walk_children true
              { deleted := [], needAnother := false, ret := 0, aborted := false }
              [({ inode := 1, offset := 1 }, FetchOutcome.ok 0)] with
            deleted := (gc_init_walk_children true
              { deleted := [], needAnother := false, ret := 0, aborted := false }
              [({ inode := 1, offset := 1 }, FetchOutcome.ok 0)]).deleted ++
                [{ inode := 2, offset := 2 }],
            needAnother := true }
          [({ inode := 3, offset := 3 }, FetchOutcome.ok 0)] ∧
    ({ inode := 2, offset := 2 } : BPos) ∈
      (gc_init_walk_children true { deleted := [], needAnother := false, ret := 0, aborted := false }
        ([({ inode := 1, offset := 1 }, FetchOutcome.ok 0)] ++
          ({ inode := 2, offset := 2 }, FetchOutcome.eio) ::
            [({ inode := 3, offset := 3 }, FetchOutcome.ok 0)])).deleted ∧
    (gc_init_walk_children true { deleted := [], needAnother := false, ret := 0, aborted := false }
        ([({ inode := 1, offset := 1 }, FetchOutcome.ok 0)] ++
          ({ inode := 2, offset := 2 }, FetchOutcome.eio) ::
            [({ inode := 3, offset := 3 }, FetchOutcome.ok 0)])).needAnother = true :=
  ⟨by decide,
   gc_init_recurse_eio_recoverable
     { deleted := [], needAnother := false, ret := 0, aborted := false }
     [({ inode := 1, offset := 1 }, FetchOutcome.ok 0)]
     [({ inode := 3, offset := 3 }, FetchOutcome.ok 0)]
     { inode := 2, offset := 2 } (by decide)⟩

/-- Helper: the out path reports the pass count it is given. -/
theorem gcOut_passes (ret : Int) (shadow : List GcBucketEnt) (st : GcFsState) (p : Nat) :
    (gcOut ret shadow st p).passes = p := by
  unfold gcOut
  split <;> rfl

/-- Helper: the again loop executes at most restartsLeft more passes after
the n passes already counted. -/
theorem gcRunLoop_passes_le (outcomes : Nat → GcPassOutcome) (tr : Bool) :
    ∀ (rl n : Nat) (st : GcFsState),
    (gcRunLoop outcomes tr rl n st).passes ≤ n + rl + 1 := by
  intro rl
  induction rl with
  | zero =>
    intro n st
    unfold gcRunLoop
    by_cases h1 : (outcomes n).startRet ≠ 0
    · simp only [if_pos h1, gcOut_passes]; omega
    · simp only [if_neg h1]
      by_cases h2 : (outcomes n).btreesRet ≠ 0
      · simp only [if_pos h2, gcOut_passes]; omega
      · simp only [if_neg h2]
        by_cases h3 : ((outcomes n).needAnother || (n == 0 && tr)) = true
        · simp only [if_pos h3, gcOut_passes]; omega
        · simp only [if_neg h3, gcOut_passes]; omega
  | succ r ih =>
    intro n st
    unfold gcRunLoop
    by_cases h1 : (outcomes n).startRet ≠ 0
    · simp only [if_pos h1, gcOut_passes]; omega
    · simp only [if_neg h1]
      by_cases h2 : (outcomes n).btreesRet ≠ 0
      · simp only [if_pos h2, gcOut_passes]; omega
      · simp only [if_neg h2]
        by_cases h3 : ((outcomes n).needAnother || (n == 0 && tr)) = true
        · simp only [if_pos h3]
          exact le_trans (ih (n + 1) _) (by omega)
        · simp only [if_neg h3, gcOut_passes]; omega

/-- Helper: when every pass succeeds and keeps requesting another pass, the
again loop uses up all its restarts and then fails with -EINVAL without
reconciling. -/
theorem gcRunLoop_exhaust (outcomes : Nat → GcPassOutcome) (tr : Bool) :
    ∀ (rl n : Nat) (st : GcFsState),
    (∀ i, n ≤ i → i ≤ n + rl →
      (outcomes i).startRet = 0 ∧ (outcomes i).btreesRet = 0 ∧ (outcomes i).needAnother = true) →
    (gcRunLoop outcomes tr rl n st).passes = n + rl + 1 ∧
    (gcRunLoop outcomes tr rl n st).ret = -22 ∧
    (gcRunLoop outcomes tr rl n st).gcDoneRan = false := by
  intro rl
  induction rl with
  | zero =>
    intro n st hpre
    obtain ⟨hs, hb, hn⟩ := hpre n (le_refl n) (by omega)
    unfold gcRunLoop
    have h1 : ¬((outcomes n).startRet ≠ 0) := by rw [hs]; simp
    have h2 : ¬((outcomes n).btreesRet ≠ 0) := by rw [hb]; simp
    have h3 : ((outcomes n).needAnother || (n == 0 && tr)) = true := by
      rw [hn]; simp
    rw [if_neg h1, if_neg h2, if_pos h3]
    unfold gcOut
    rw [if_neg (by norm_num : ¬(-22 : Int) = 0)]
    exact ⟨rfl, rfl, rfl⟩
  | succ r ih =>
    intro n st hpre
    obtain ⟨hs, hb, hn⟩ := hpre n (le_refl n) (by omega)
    unfold gcRunLoop
    have h1 : ¬((outcomes n).startRet ≠ 0) := by rw [hs]; simp
    have h2 : ¬((outcomes n).btreesRet ≠ 0) := by rw [hb]; simp
    have h3 : ((outcomes n).needAnother || (n == 0 && tr)) = true := by
      rw [hn]; simp
    rw [if_neg h1, if_neg h2, if_pos h3]
    have hrec := ih (n + 1)
      { live := st.live, needAllocWrite := st.needAllocWrite,
        gcPos := gcPosNotRunningV, gcCount := st.gcCount + 1 }
      (fun i hi1 hi2 => hpre i (by omega) (by omega))
    exact ⟨by rw [hrec.1]; omega, hrec.2.1, hrec.2.2⟩

/-- Helper: if the first k passes succeed and request another pass and pass
k fails in bch2_gc_start or bch2_gc_btrees with a nonzero code e, the loop
returns e, skips reconciliation, leaves the live counters and the flag
untouched, resets gc_pos and frees the shadow. -/
theorem gcRunLoop_error_path (outcomes : Nat → GcPassOutcome) (tr : Bool) :
    ∀ (k rl n : Nat) (st : GcFsState) (e : Int),
    (∀ i, n ≤ i → i < n + k →
      (outcomes i).startRet = 0 ∧ (outcomes i).btreesRet = 0 ∧ (outcomes i).needAnother = true) →
    ((outcomes (n + k)).startRet = e ∨
      ((outcomes (n + k)).startRet = 0 ∧ (outcomes (n + k)).btreesRet = e)) →
    e ≠ 0 →
    k ≤ rl →
    (gcRunLoop outcomes tr rl n st).ret = e ∧
    (gcRunLoop outcomes tr rl n st).gcDoneRan = false ∧
    (gcRunLoop outcomes tr rl n st).st.live = st.live ∧
    (gcRunLoop outcomes tr rl n st).st.needAllocWrite = st.needAllocWrite ∧
    (gcRunLoop outcomes tr rl n st).st.gcPos = gcPosNotRunningV ∧
    (gcRunLoop outcomes tr rl n st).shadowFreed = true := by
  intro k
  induction k with
  | zero =>
    intro rl n st e hpre hstep he hk
    rw [Nat.add_zero] at hstep
    unfold gcRunLoop
    rcases hstep with hs | ⟨hs, hb⟩
    · have h1 : (outcomes n).startRet ≠ 0 := by rw [hs]; exact he
      rw [if_pos h1]
      unfold gcOut
      rw [if_neg h1]
      exact ⟨hs, rfl, rfl, rfl, rfl, rfl⟩
    · have h1 : ¬((outcomes n).startRet ≠ 0) := by rw [hs]; simp
      have h2 : (outcomes n).btreesRet ≠ 0 := by rw [hb]; exact he
      rw [if_neg h1, if_pos h2]
      unfold gcOut
      rw [if_neg h2]
      exact ⟨hb, rfl, rfl, rfl, rfl, rfl⟩
  | succ k ih =>
    intro rl n st e hpre hstep he hk
    obtain ⟨r, rfl⟩ : ∃ r, rl = r + 1 := ⟨rl - 1, by omega⟩
    obtain ⟨hs, hb, hn⟩ := hpre n (le_refl n) (by omega)
    unfold gcRunLoop
    have h1 : ¬((outcomes n).startRet ≠ 0) := by rw [hs]; simp
    have h2 : ¬((outcomes n).btreesRet ≠ 0) := by rw [hb]; simp
    have h3 : ((outcomes n).needAnother || (n == 0 && tr)) = true := by
      rw [hn]; simp
    rw [if_neg h1, if_neg h2, if_pos h3]
    have hadd : n + (k + 1) = (n + 1) + k := by omega
    rw [hadd] at hstep
    exact ih r (n + 1)
      { live := st.live, needAllocWrite := st.needAllocWrite,
        gcPos := gcPosNotRunningV, gcCount := st.gcCount + 1 }
      e (fun i hi1 hi2 => hpre i (by omega) (by omega)) hstep he (by omega)

/-- Claim C2 (amended): the mark phase of bch2_gc is executed at most 4
times per run (the iter++ <= 2 guard allows three restarts after the first
pass), and when every pass succeeds but the need-another-pass flag is still
set after the fourth, bch2_gc returns -EINVAL (-22) without reconciling
instead of looping again. -/
theorem gc_mark_pass_bound (outcomes : Nat → GcPassOutcome) (tr : Bool) (st : GcFsState) :
    (bch2_gc outcomes tr st).passes ≤ 4 ∧
    ((∀ i, i < 4 →
        (outcomes i).startRet = 0 ∧ (outcomes i).btreesRet = 0 ∧
        (outcomes i).needAnother = true) →
      (bch2_gc outcomes tr st).passes = 4 ∧ (bch2_gc outcomes tr st).ret = -22 ∧
      (bch2_gc outcomes tr st).gcDoneRan = false) := by
  constructor
  · exact gcRunLoop_passes_le outcomes tr 3 0 st
  · intro h
    have hx := gcRunLoop_exhaust outcomes tr 3 0 st (fun i hi1 hi2 => h i (by omega))
    exact ⟨hx.1, hx.2.1, hx.2.2⟩

/-- Claim C2 counterexample: with outcomes that always succeed and always
set the need-another-pass flag, the run executes the mark phase 4 times, not
at most 3 as the claim states. -/
theorem gc_mark_pass_bound_counterexample :
    ¬((bch2_gc gcOutAlwaysEx false gcFsStEx).passes ≤ 3) := by
  decide

/-- Claim C2 witness: the amended bound evaluated on the always-restarting
run: exactly 4 passes, return value -22, reconciliation skipped. -/
theorem gc_mark_pass_bound_witness :
    (bch2_gc gcOutAlwaysEx false gcFsStEx).passes = 4 ∧
    (bch2_gc gcOutAlwaysEx false gcFsStEx).ret = -22 ∧
    (bch2_gc gcOutAlwaysEx false gcFsStEx).gcDoneRan = false :=
  (gc_mark_pass_bound gcOutAlwaysEx false gcFsStEx).2 (fun _ _ => ⟨rfl, rfl, rfl⟩)

/-- Claim C9: if any step of the mark phase of a bch2_gc run (the shadow
allocation of bch2_gc_start or the btree sweep of bch2_gc_btrees, on any of
its passes) returns a nonzero error, reconciliation is not performed: the
live bucket counters and the needs-alloc-write flag are left unchanged, the
shadow structures are freed, gc_pos is reset to NOT_RUNNING, and the error
is returned to the caller. -/
theorem gc_mark_error_skips_reconcile (outcomes : Nat → GcPassOutcome) (tr : Bool)
    (st : GcFsState) (k : Nat) (e : Int)
    (hpre : ∀ i, i < k →
      (outcomes i).startRet = 0 ∧ (outcomes i).btreesRet = 0 ∧ (outcomes i).needAnother = true)
    (hstep : (outcomes k).startRet = e ∨
      ((outcomes k).startRet = 0 ∧ (outcomes k).btreesRet = e))
    (he : e ≠ 0) (hk : k ≤ 3) :
    (bch2_gc outcomes tr st).ret = e ∧
    (bch2_gc outcomes tr st).gcDoneRan = false ∧
    (bch2_gc outcomes tr st).st.live = st.live ∧
    (bch2_gc outcomes tr st).st.needAllocWrite = st.needAllocWrite ∧
    (bch2_gc outcomes tr st).st.gcPos = gcPosNotRunningV ∧
    (bch2_gc outcomes tr st).shadowFreed = true := by
  have hpre0 : ∀ i, 0 ≤ i → i < 0 + k →
      (outcomes i).startRet = 0 ∧ (outcomes i).btreesRet = 0 ∧
      (outcomes i).needAnother = true :=
    fun i _ hi => hpre i (by omega)
  have hstep0 : (outcomes (0 + k)).startRet = e ∨
      ((outcomes (0 + k)).startRet = 0 ∧ (outcomes (0 + k)).btreesRet = e) := by
    rw [Nat.zero_add]; exact hstep
  exact gcRunLoop_error_path outcomes tr k 3 0 st e hpre0 hstep0 he hk

/-- Claim C9 witness: a run whose very first shadow allocation fails with
-ENOMEM-like code -5. -/
theorem gc_mark_error_skips_reconcile_witness :
    (bch2_gc gcErrOutEx false gcFsStEx).ret = -5 ∧
    (bch2_gc gcErrOutEx false gcFsStEx).gcDoneRan = false ∧
    (bch2_gc gcErrOutEx false gcFsStEx).st.live = gcFsStEx.live ∧
    (bch2_gc gcErrOutEx false gcFsStEx).st.needAllocWrite = gcFsStEx.needAllocWrite ∧
    (bch2_gc gcErrOutEx false gcFsStEx).st.gcPos = gcPosNotRunningV ∧
    (bch2_gc gcErrOutEx false gcFsStEx).shadowFreed = true :=
  gc_mark_error_skips_reconcile gcErrOutEx false gcFsStEx 0 (-5)
    (fun i hi => absurd hi (Nat.not_lt_zero i))
    (Or.inl rfl) (by norm_num) (by omega)

/-- Helper: the conditional gc_gen update of the gens pass is a pointwise
min at the referenced bucket. -/
theorem lowerGcGen_eq (bs : Nat → GBucket) (p : GenPtr) (j : Nat) :
    lowerGcGen bs p j =
      if j = p.bucket then { bs j with gcGen := min (bs j).gcGen p.gen } else bs j := by
  unfold lowerGcGen genAfter
  by_cases h : j = p.bucket
  · rw [if_pos h, if_pos h]
    by_cases h2 : p.gen < (bs j).gcGen
    · rw [if_pos (by omega : 0 < (bs j).gcGen - p.gen)]
      rw [Nat.min_eq_right (Nat.le_of_lt h2)]
    · rw [if_neg (by omega : ¬0 < (bs j).gcGen - p.gen)]
      rw [Nat.min_eq_left (by omega : (bs j).gcGen ≤ p.gen)]
  · rw [if_neg h, if_neg h]

/-- Helper: folding the gc_gen updates of one key over the bucket array
lowers each bucket gc_gen to the min of its old value and the gens of the
pointers of the key referencing it, leaving every other field unchanged. -/
theorem foldl_lowerGcGen (k : List GenPtr) : ∀ (bs : Nat → GBucket) (j : Nat),
    (k.foldl lowerGcGen bs) j =
      { bs j with
        gcGen := k.foldl (fun a p => if p.bucket = j then min a p.gen else a) (bs j).gcGen } := by
  induction k with
  | nil => intro bs j; rfl
  | cons p rest ih =>
    intro bs j
    simp only [List.foldl_cons]
    rw [ih (lowerGcGen bs p) j, lowerGcGen_eq]
    by_cases h : j = p.bucket
    · rw [if_pos h, if_pos (Eq.symm h)]
    · rw [if_neg h, if_neg (fun hb => h (Eq.symm hb))]

/-- Helper: the min fold never increases the accumulator. -/
theorem gcGen_fold_le (j : Nat) (k : List GenPtr) : ∀ a : Nat,
    k.foldl (fun a p => if p.bucket = j then min a p.gen else a) a ≤ a := by
  induction k with
  | nil => intro a; exact le_refl a
  | cons p rest ih =>
    intro a
    simp only [List.foldl_cons]
    by_cases h : p.bucket = j
    · rw [if_pos h]
      exact le_trans (ih (min a p.gen)) (Nat.min_le_left a p.gen)
    · rw [if_neg h]
      exact ih a

/-- Helper: the min fold stays above the oldest-gen horizon when the initial
value and all folded pointer gens do. -/
theorem gcGen_fold_lb (bs0 : Nat → GBucket) (j : Nat) (k : List GenPtr) : ∀ a : Nat,
    (∀ p ∈ k, (bs0 p.bucket).oldestGen ≤ p.gen) →
    (bs0 j).oldestGen ≤ a →
    (bs0 j).oldestGen ≤ k.foldl (fun a p => if p.bucket = j then min a p.gen else a) a := by
  induction k with
  | nil => intro a _ ha; exact ha
  | cons p rest ih =>
    intro a hk ha
    simp only [List.foldl_cons]
    have hrest : ∀ q ∈ rest, (bs0 q.bucket).oldestGen ≤ q.gen :=
      fun q hq => hk q (List.mem_cons_of_mem p hq)
    by_cases h : p.bucket = j
    · rw [if_pos h]
      refine ih (min a p.gen) hrest (le_min ha ?_)
      have := hk p (List.mem_cons_self p rest)
      rw [h] at this
      exact this
    · rw [if_neg h]
      exact ih a hrest ha

/-- Helper: one key step of the gens pass preserves gen and oldest_gen of
every bucket and keeps gc_gen between the old oldest_gen and gen. -/
theorem gc_btree_gens_step_inv (bs0 bs : Nat → GBucket) (k : List GenPtr)
    (hk : ∀ p ∈ k, (bs0 p.bucket).oldestGen ≤ p.gen)
    (hinv : ∀ i, (bs i).gen = (bs0 i).gen ∧ (bs i).oldestGen = (bs0 i).oldestGen ∧
      (bs0 i).oldestGen ≤ (bs i).gcGen ∧ (bs i).gcGen ≤ (bs i).gen) :
    ∀ i, ((gc_btree_gens_step bs k).1 i).gen = (bs0 i).gen ∧
      ((gc_btree_gens_step bs k).1 i).oldestGen = (bs0 i).oldestGen ∧
      (bs0 i).oldestGen ≤ ((gc_btree_gens_step bs k).1 i).gcGen ∧
      ((gc_btree_gens_step bs k).1 i).gcGen ≤ ((gc_btree_gens_step bs k).1 i).gen := by
  intro i
  unfold gc_btree_gens_step gc_btree_gens_key
  by_cases hrw : (k.any fun p => decide (16 < genAfter (bs p.bucket).gen p.gen)) = true
  · simp only [hrw, if_pos rfl]
    exact hinv i
  · have hrw2 : (k.any fun p => decide (16 < genAfter (bs p.bucket).gen p.gen)) = false := by
      cases hx : (k.any fun p => decide (16 < genAfter (bs p.bucket).gen p.gen))
      · rfl
      · exact absurd hx hrw
    simp only [hrw2, Bool.false_eq_true, if_false]
    rw [foldl_lowerGcGen]
    obtain ⟨h1, h2, h3, h4⟩ := hinv i
    refine ⟨h1, h2, ?_, ?_⟩
    · exact gcGen_fold_lb bs0 i k ((bs i).gcGen) hk h3
    · exact le_trans (gcGen_fold_le i k ((bs i).gcGen)) h4

/-- Helper: the bucket-array component of the driver fold ignores the list
of committed rewrites. -/
theorem gens_fold_fst (keys : List (List GenPtr)) : ∀ (bs : Nat → GBucket)
    (acc : List (List GenPtr)),
    (keys.foldl
      (fun a k =>
        let s := gc_btree_gens_step a.1 k
        (s.1, a.2 ++ s.2.toList))
      (bs, acc)).1
      = keys.foldl (fun b k => (gc_btree_gens_step b k).1) bs := by
  induction keys with
  | nil => intro bs acc; rfl
  | cons k rest ih =>
    intro bs acc
    simp only [List.foldl_cons]
    exact ih _ _

/-- Helper: the key fold of the gens pass preserves the per-bucket
invariant. -/
theorem gens_keys_fold_inv (bs0 : Nat → GBucket) (keys : List (List GenPtr)) :
    ∀ bs : Nat → GBucket,
    (∀ k ∈ keys, ∀ p ∈ k, (bs0 p.bucket).oldestGen ≤ p.gen) →
    (∀ i, (bs i).gen = (bs0 i).gen ∧ (bs i).oldestGen = (bs0 i).oldestGen ∧
      (bs0 i).oldestGen ≤ (bs i).gcGen ∧ (bs i).gcGen ≤ (bs i).gen) →
    ∀ i, ((keys.foldl (fun b k => (gc_btree_gens_step b k).1) bs) i).gen = (bs0 i).gen ∧
      ((keys.foldl (fun b k => (gc_btree_gens_step b k).1) bs) i).oldestGen
        = (bs0 i).oldestGen ∧
      (bs0 i).oldestGen ≤ ((keys.foldl (fun b k => (gc_btree_gens_step b k).1) bs) i).gcGen ∧
      ((keys.foldl (fun b k => (gc_btree_gens_step b k).1) bs) i).gcGen
        ≤ ((keys.foldl (fun b k => (gc_btree_gens_step b k).1) bs) i).gen := by
  induction keys with
  | nil => intro bs _ hinv; exact hinv
  | cons k rest ih =>
    intro bs hk hinv
    simp only [List.foldl_cons]
    exact ih _
      (fun k2 hk2 p hp => hk k2 (List.mem_cons_of_mem k hk2) p hp)
      (gc_btree_gens_step_inv bs0 bs k (hk k (List.mem_cons_self k rest)) hinv)

/-- Claim C3: for every bucket, after a run of bch2_gc_gens over a state in
which oldest_gen is a lower bound on the bucket gen and on the gen of every
live pointer into the bucket, the new oldest_gen is at least the old
oldest_gen and at most the bucket gen, and the bucket gen itself is unchanged
by the pass. -/
theorem gc_gens_oldest_gen_monotone (bs : Nat → GBucket) (keys : List (List GenPtr))
    (h1 : ∀ i, (bs i).oldestGen ≤ (bs i).gen)
    (h2 : ∀ k ∈ keys, ∀ p ∈ k, (bs p.bucket).oldestGen ≤ p.gen) :
    ∀ i, (bs i).oldestGen ≤ (bch2_gc_gens bs keys i).oldestGen ∧
      (bch2_gc_gens bs keys i).oldestGen ≤ (bch2_gc_gens bs keys i).gen ∧
      (bch2_gc_gens bs keys i).gen = (bs i).gen := by
  intro i
  unfold bch2_gc_gens bch2_gc_btree_gens
  rw [gens_fold_fst]
  have hseed : ∀ j, ((fun x => { bs x with gcGen := (bs x).gen }) j).gen = (bs j).gen ∧
      ((fun x => { bs x with gcGen := (bs x).gen }) j).oldestGen = (bs j).oldestGen ∧
      (bs j).oldestGen ≤ ((fun x => { bs x with gcGen := (bs x).gen }) j).gcGen ∧
      ((fun x => { bs x with gcGen := (bs x).gen }) j).gcGen
        ≤ ((fun x => { bs x with gcGen := (bs x).gen }) j).gen :=
    fun j => ⟨rfl, rfl, h1 j, le_refl _⟩
  have hfold := gens_keys_fold_inv bs keys (fun x => { bs x with gcGen := (bs x).gen })
    h2 hseed i
  obtain ⟨hg, ho, hlb, hub⟩ := hfold
  refine ⟨hlb, ?_, hg⟩
  rw [hg] at hub
  exact le_trans hub (le_of_eq (Eq.symm hg))

/-- Claim C3 witness: a single bucket at gen 10 with oldest_gen 2 and one
leaf key pointing at it with gen 4; after the pass oldest_gen is 4. -/
theorem gc_gens_oldest_gen_monotone_witness :
    (gensBsW 0).oldestGen ≤ (bch2_gc_gens gensBsW gensKeysW 0).oldestGen ∧
    (bch2_gc_gens gensBsW gensKeysW 0).oldestGen ≤ (bch2_gc_gens gensBsW gensKeysW 0).gen ∧
    (bch2_gc_gens gensBsW gensKeysW 0).gen = (gensBsW 0).gen :=
  gc_gens_oldest_gen_monotone gensBsW gensKeysW
    (fun _ => show (2 : Nat) ≤ 10 by decide) (by decide) 0

/-- Claim C6: for every leaf key visited by the gens pass, if some pointer
of the key has bucket gen minus pointer gen greater than 16 the key step
leaves the buckets alone and commits the normalized extent (stale pointers
dropped) as a rewrite; otherwise nothing is committed and, for every pointer
of the key, the gc_gen of its bucket is lowered to the min of its previous
value and the pointer gen, all other fields unchanged. -/
theorem gc_btree_gens_key_rewrite_or_min (bs : Nat → GBucket) (k : List GenPtr) :
    ((∃ p ∈ k, 16 < genAfter (bs p.bucket).gen p.gen) →
      gc_btree_gens_step bs k = (bs, some (bch2_extent_normalize bs k))) ∧
    ((∀ p ∈ k, genAfter (bs p.bucket).gen p.gen ≤ 16) →
      (gc_btree_gens_step bs k).2 = none ∧
      ∀ j, (gc_btree_gens_step bs k).1 j =
        { bs j with
          gcGen := k.foldl (fun a p => if p.bucket = j then min a p.gen else a)
            (bs j).gcGen }) := by
  constructor
  · rintro ⟨p, hp, hgt⟩
    have hany : (k.any fun p => decide (16 < genAfter (bs p.bucket).gen p.gen)) = true := by
      rw [List.any_eq_true]
      exact ⟨p, hp, by simpa using hgt⟩
    unfold gc_btree_gens_step gc_btree_gens_key
    rw [if_pos hany]
    rfl
  · intro h
    have hany : (k.any fun p => decide (16 < genAfter (bs p.bucket).gen p.gen)) = false := by
      rw [List.any_eq_false]
      intro p hp
      simp only [decide_eq_true_eq]
      exact Nat.not_lt.mpr (h p hp)
    unfold gc_btree_gens_step gc_btree_gens_key
    simp only [hany, Bool.false_eq_true, if_false]
    refine ⟨trivial, ?_⟩
    intro j
    exact foldl_lowerGcGen k bs j

/-- Claim C6 witness: both branches evaluated: a pointer 29 generations
stale triggers the rewrite, a pointer 6 generations stale only lowers
gc_gen. -/
theorem gc_btree_gens_key_rewrite_or_min_witness :
    gc_btree_gens_step gensBsRw [{ bucket := 0, gen := 1, cached := false }]
      = (gensBsRw,
          some (bch2_extent_normalize gensBsRw [{ bucket := 0, gen := 1, cached := false }])) ∧
    (gc_btree_gens_step gensBsW [{ bucket := 0, gen := 4, cached := false }]).2 = none ∧
    ∀ j, (gc_btree_gens_step gensBsW [{ bucket := 0, gen := 4, cached := false }]).1 j =
      { gensBsW j with
        gcGen := [({ bucket := 0, gen := 4, cached := false } : GenPtr)].foldl
          (fun a p => if p.bucket = j then min a p.gen else a) (gensBsW j).gcGen } :=
  ⟨(gc_btree_gens_key_rewrite_or_min gensBsRw
      [{ bucket := 0, gen := 1, cached := false }]).1 (by decide),
   ((gc_btree_gens_key_rewrite_or_min gensBsW
      [{ bucket := 0, gen := 4, cached := false }]).2 (by decide)).1,
   ((gc_btree_gens_key_rewrite_or_min gensBsW
      [{ bucket := 0, gen := 4, cached := false }]).2 (by decide)).2⟩

/-- Claim C7 counterexample: a single-pass run of bch2_gc installing the
btree and allocator positions of gcMidsEx.  The run, from entry to return,
ends with the reset of gc_pos to NOT_RUNNING performed through __gc_pos_set,
so the successive gc_pos values of the run are not strictly increasing. -/
theorem gc_pos_monotone_counterexample :
    ¬ List.Chain' (fun a b => gcPosLtb a b = true) (gc_pos_trace gcMidsEx) := by
  simp [gc_pos_trace, gcMidsEx, List.chain'_cons, gcPosLtb, gcPosStartV, gcPosSBV,
    gcPosNotRunningV]

/-- Helper: a nonempty run trace starts with the GC_PHASE_START cursor. -/
theorem gc_pos_trace_head (rest : List (List GcPos)) :
    ∀ y ∈ (gc_pos_trace rest).head?, y = gcPosStartV := by
  cases rest with
  | nil => intro y hy; exact absurd hy (by simp [gc_pos_trace])
  | cons m r => intro y hy; simpa [gc_pos_trace, eq_comm] using hy

/-- Claim C7 (amended): within each mark pass of a bch2_gc run the installed
gc_pos values are strictly increasing in the total cursor order (every such
install goes through gc_pos_set, whose BUG_ON asserts strict increase); the
only non-increasing transitions of the run are the resets to NOT_RUNNING
installed through __gc_pos_set before a restarted pass and at return. -/
theorem gc_pos_monotone_within_pass (mids : List (List GcPos))
    (h : ∀ mid ∈ mids,
      List.Chain' (fun a b => gcPosLtb a b = true) (gcPosStartV :: gcPosSBV :: mid)) :
    List.Chain' (fun a b => gcPosLtb a b = true ∨ b = gcPosNotRunningV)
      (gc_pos_trace mids) := by
  induction mids with
  | nil => exact List.chain'_nil
  | cons mid rest ih =>
    have hmid := h mid (List.mem_cons_self mid rest)
    have hrest := ih (fun m hm => h m (List.mem_cons_of_mem mid hm))
    have hshape : gc_pos_trace (mid :: rest)
        = (gcPosStartV :: gcPosSBV :: mid) ++ (gcPosNotRunningV :: gc_pos_trace rest) := by
      simp [gc_pos_trace]
    rw [hshape]
    rw [List.chain'_append]
    refine ⟨hmid.imp (fun a b hab => Or.inl hab), ?_, ?_⟩
    · rw [List.chain'_cons']
      refine ⟨?_, hrest⟩
      intro y hy
      rw [gc_pos_trace_head rest y hy]
      exact Or.inl (by decide)
    · intro x hx y hy
      simp only [List.head?_cons, Option.mem_def, Option.some.injEq] at hy
      exact Or.inr (Eq.symm hy)

/-- Claim C7 witness: the amended chain property evaluated on the concrete
single-pass trace of gcMidsEx. -/
theorem gc_pos_monotone_within_pass_witness :
    List.Chain' (fun a b => gcPosLtb a b = true ∨ b = gcPosNotRunningV)
      (gc_pos_trace gcMidsEx) :=
  gc_pos_monotone_within_pass gcMidsEx
    (by simp [gcMidsEx, List.chain'_cons, gcPosLtb, gcPosStartV, gcPosSBV])
